import Mathlib

/-!
Verification of the diesel migration engine and integer codec.

The development shallowly embeds two source files:
- src/diesel/src/types/impls/integers.rs: the big-endian integer codec
  (FromSql and ToSql for i16, i32, i64, and u32).
- src/diesel/src/migrations/mod.rs: the migration runner.

Machine integers are modelled as Int with explicit two of-complement
wrapping at the relevant width; byte buffers are lists of Nat below 256.
Database effects are modelled by explicit state passing: a DbState holds
the tracking table (None when the table has not been created, otherwise
the list of recorded versions in insertion order) together with an
abstract schema value that the up and down procedures of a migration act
upon.  The connection, transaction and query primitives are collaborators
of the repository that are not under src, so they are modelled from the
collaborator contract in the spec; each such definition carries a doc
comment saying so.
-/

namespace Diesel

/- ------------------------------------------------------------------ -/
/- Integer codec: src/diesel/src/types/impls/integers.rs              -/
/- ------------------------------------------------------------------ -/

/-- Errors of the byte codec.  unexpectedNull models the error returned by
the not_none macro on a SQL NULL; unexpectedEof models the io error that
byteorder reads return when the buffer holds fewer bytes than the fixed
width. -/
inductive CodecError
  | unexpectedNull
  | unexpectedEof
deriving DecidableEq, Repr

/-- Big-endian bytes of a natural number at a fixed width in bytes: the
first byte is the most significant.  Only the low 8 * w bits of u are
represented. -/
def beBytes : Nat → Nat → List Nat
  | 0, _ => []
  | w + 1, u => (u / 256 ^ w) % 256 :: beBytes w u

/-- Reading bytes big-endian into an accumulator, as a sequential byte
reader does. -/
def beVal (acc : Nat) : List Nat → Nat
  | [] => acc
  | b :: bs => beVal (acc * 256 + b) bs

/-- Modelled from the spec: the byteorder collaborator writes a machine
integer as its fixed-width big-endian two of-complement bytes.  The value
is wrapped into the range of the width first. -/
def toSqlBE (w : Nat) (v : Int) : List Nat :=
  beBytes w (v % ((2 : Int) ^ (8 * w))).toNat

/-- Modelled from the spec: the byteorder collaborator reads a fixed-width
big-endian two of-complement integer.  A missing buffer (SQL NULL) is an
unexpectedNull error, per the not_none macro; a buffer shorter than the
width is an unexpectedEof error, per read_exact. -/
def fromSqlBE (w : Nat) (bytes : Option (List Nat)) : Except CodecError Int :=
  match bytes with
  | none => .error .unexpectedNull
  | some bs =>
    if bs.length < w then .error .unexpectedEof
    else
      let u := beVal 0 (bs.take w)
      if u < 2 ^ (8 * w - 1) then .ok (u : Int)
      else .ok ((u : Int) - 2 ^ (8 * w))

/-- ToSql of SmallInt for i16: write_i16 big-endian. -/
def i16_to_sql (v : Int) : List Nat := toSqlBE 2 v

/-- ToSql of Integer for i32: write_i32 big-endian. -/
def i32_to_sql (v : Int) : List Nat := toSqlBE 4 v

/-- ToSql of BigInt for i64: write_i64 big-endian. -/
def i64_to_sql (v : Int) : List Nat := toSqlBE 8 v

/-- FromSql of SmallInt for i16: not_none then read_i16 big-endian. -/
def i16_from_sql (bytes : Option (List Nat)) : Except CodecError Int := fromSqlBE 2 bytes

/-- FromSql of Integer for i32: not_none then read_i32 big-endian. -/
def i32_from_sql (bytes : Option (List Nat)) : Except CodecError Int := fromSqlBE 4 bytes

/-- FromSql of BigInt for i64: not_none then read_i64 big-endian. -/
def i64_from_sql (bytes : Option (List Nat)) : Except CodecError Int := fromSqlBE 8 bytes

/-- FromSql of Oid for u32: not_none then read_u32 big-endian, an unsigned
read. -/
def u32_from_sql (bytes : Option (List Nat)) : Except CodecError Int :=
  match bytes with
  | none => .error .unexpectedNull
  | some bs =>
    if bs.length < 4 then .error .unexpectedEof
    else .ok ((beVal 0 (bs.take 4) : Nat) : Int)

/- ------------------------------------------------------------------ -/
/- Migration engine: src/diesel/src/migrations/mod.rs                 -/
/- ------------------------------------------------------------------ -/

/-- The error taxonomy of the migration engine.  The source splits these
between MigrationError and RunMigrationsError; the model flattens both
into one type.  queryError stands for any QueryResult failure surfaced by
the connection; noMigrationsRun is the failure of latest_run_migration_version
when the tracking table is empty. -/
inductive MigrationError
  | migrationDirectoryNotFound
  | malformedMigrationFolder
  | unknownMigrationVersion (v : String)
  | noMigrationsRun
  | queryError
deriving DecidableEq, Repr

/-- The durable database state: the tracking table
__diesel_schema_migrations (none when the table has not been created,
otherwise the recorded version strings in insertion order) and an abstract
schema value acted on by up and down procedures. -/
structure DbState (σ : Type) where
  tracking : Option (List String)
  schema : σ
deriving DecidableEq, Repr

variable {σ α β : Type}

/-- A database action: explicit state passing with an error channel.  The
state component of the result is the durable state after the action, also
when the action fails (side effects are not undone by failure; only the
transaction combinator rolls back). -/
abbrev M (σ α : Type) := DbState σ → DbState σ × Except MigrationError α

def M.pure (a : α) : M σ α := fun s => (s, .ok a)

def M.bind (x : M σ α) (f : α → M σ β) : M σ β := fun s =>
  match x s with
  | (s1, .ok a) => f a s1
  | (s1, .error e) => (s1, .error e)

/-- Modelled from the spec: the scoped transaction primitive of the
connection collaborator (not under src); it commits on normal completion
and rolls the state back on any failure raised inside the scope. -/
def transaction (body : M σ α) : M σ α := fun s =>
  match body s with
  | (s1, .ok a) => (s1, .ok a)
  | (_, .error e) => (s, .error e)

/-- Modelled from the spec: suppressing informational diagnostics during
idempotent DDL changes no durable state, so the wrapper is the identity on
actions. -/
def silenceNotices (body : M σ α) : M σ α := body

/-- The DDL statement executed by create_schema_migrations_table_if_needed,
verbatim from the source. -/
def createTableSql : String :=
  "CREATE TABLE IF NOT EXISTS __diesel_schema_migrations (
            version VARCHAR PRIMARY KEY NOT NULL,
            run_on TIMESTAMP NOT NULL DEFAULT NOW()
        )"

/-- Dropping whitespace characters from both ends of a character list. -/
def trimChars (cs : List Char) : List Char :=
  ((cs.dropWhile Char.isWhitespace).reverse.dropWhile Char.isWhitespace).reverse

/-- Splitting a character list on a separator character. -/
def splitCharsOn (sep : Char) : List Char → List (List Char)
  | [] => [[]]
  | c :: cs =>
    if c = sep then [] :: splitCharsOn sep cs
    else
      match splitCharsOn sep cs with
      | [] => [[c]]
      | g :: gs => (c :: g) :: gs

/-- Whether the second character list is an initial segment of the
first. -/
def listHasPrefixOf : List Char → List Char → Bool
  | _, [] => true
  | [], _ :: _ => false
  | a :: as, b :: bs => a == b && listHasPrefixOf as bs

/-- Whether p is an initial segment of s. -/
def strHasPrefix (s p : String) : Bool := listHasPrefixOf s.toList p.toList

/-- Whether a file name starts with the hidden-file marker, a leading
dot. -/
def startsWithDot (s : String) : Bool :=
  match s.toList with
  | [] => false
  | c :: _ => c == '.'

/-- The table name in createTableSql: the token after the 27 characters of
the prefix CREATE TABLE IF NOT EXISTS. -/
def trackingTableName : String :=
  String.mk (((createTableSql.toList).drop 27).takeWhile (fun c => c != ' '))

/-- The column definitions in createTableSql: the text between the first
opening parenthesis and the final closing one, split on commas and
trimmed. -/
def trackingTableColumns : List String :=
  (splitCharsOn ',' ((((createTableSql.toList).dropWhile
      (fun c => c != '(')).drop 1).dropLast)).map (fun cs => String.mk (trimChars cs))

/-- Modelled from the spec: executing the CREATE TABLE IF NOT EXISTS
statement through the connection collaborator.  It creates the (empty)
tracking table when absent and is a no-op when the table already exists;
it reports an affected-row count of zero either way. -/
def executeCreateTrackingTable : M σ Nat := fun s =>
  match s.tracking with
  | none => ({ s with tracking := some [] }, .ok 0)
  | some _ => (s, .ok 0)

def create_schema_migrations_table_if_needed : M σ Nat :=
  silenceNotices executeCreateTrackingTable

/-- The pure effect of ensuring the tracking table exists. -/
def ensureState (s : DbState σ) : DbState σ :=
  { s with tracking := some (s.tracking.getD []) }

/-- Modelled from the spec: the select of all recorded versions through the
query collaborator.  Fails when the tracking table does not exist. -/
def previously_run_migration_versions : M σ (List String) := fun s =>
  match s.tracking with
  | none => (s, .error .queryError)
  | some rows => (s, .ok rows)

/-- Modelled from the spec: select max(version) and load the single result.
Per the spec, it fails with a no-migrations-recorded condition when the set
is empty (in the source the NULL aggregate fails to load as a String). -/
def latest_run_migration_version : M σ String := fun s =>
  match s.tracking with
  | none => (s, .error .queryError)
  | some rows =>
    match rows.max? with
    | none => (s, .error .noMigrationsRun)
    | some v => (s, .ok v)

/-- Modelled from the spec: the insert of a NewMigration row.  The primary
key on version makes a duplicate insert fail with a query error. -/
def insertMigrationVersion (v : String) : M σ Unit := fun s =>
  match s.tracking with
  | none => (s, .error .queryError)
  | some rows =>
    if v ∈ rows then (s, .error .queryError)
    else ({ s with tracking := some (rows ++ [v]) }, .ok ())

/-- Modelled from the spec: the delete of the rows whose version equals v;
a no-op when no such row exists. -/
def deleteMigrationVersion (v : String) : M σ Unit := fun s =>
  match s.tracking with
  | none => (s, .error .queryError)
  | some rows => ({ s with tracking := some (rows.filter (fun w => w != v)) }, .ok ())

/-- Modelled from the spec: a migration unit as the runner consumes it (the
Migration trait lives in src/diesel/src/migrations/migration.rs, which is
not under src): a version together with the up and down procedures, which
act on the abstract schema and may fail. -/
structure Migration (σ : Type) where
  version : String
  up : σ → Except MigrationError σ
  down : σ → Except MigrationError σ

/-- Running the up procedure of a migration through the connection. -/
def Migration.runProc (m : Migration σ) : M σ Unit := fun s =>
  match m.up s.schema with
  | .ok sch => ({ s with schema := sch }, .ok ())
  | .error e => (s, .error e)

/-- Running the down procedure of a migration through the connection. -/
def Migration.revertProc (m : Migration σ) : M σ Unit := fun s =>
  match m.down s.schema with
  | .ok sch => ({ s with schema := sch }, .ok ())
  | .error e => (s, .error e)

/-- run_migration: one transaction around running the up procedure and
inserting the tracking row. -/
def run_migration (m : Migration σ) : M σ Unit :=
  transaction (M.bind m.runProc (fun _ => insertMigrationVersion m.version))

/-- revert_migration: one transaction around running the down procedure and
deleting the tracking row. -/
def revert_migration (m : Migration σ) : M σ Unit :=
  transaction (M.bind m.revertProc (fun _ => deleteMigrationVersion m.version))

/-- run_migrations: run each migration in order, stopping at the first
failure. -/
def run_migrations : List (Migration σ) → M σ Unit
  | [] => M.pure ()
  | m :: rest => M.bind (run_migration m) (fun _ => run_migrations rest)

/-- run_pending_migrations, with the filesystem discovery outcome passed in
as the list of enumerated units in directory order: ensure the tracking
table, read the applied versions, filter the units to those not already
run (preserving enumeration order, no sort), and run them. -/
def run_pending_migrations (all : List (Migration σ)) : M σ Unit :=
  M.bind create_schema_migrations_table_if_needed (fun _ =>
  M.bind previously_run_migration_versions (fun already_run =>
  run_migrations (all.filter (fun m => !(already_run.contains m.version)))))

/-- migration_with_version: search the enumerated units for an exact
version match. -/
def migration_with_version (all : List (Migration σ)) (ver : String) :
    Except MigrationError (Migration σ) :=
  match all.find? (fun m => m.version == ver) with
  | some m => .ok m
  | none => .error (.unknownMigrationVersion ver)

def run_migration_with_version (all : List (Migration σ)) (ver : String) : M σ Unit :=
  fun s =>
    match migration_with_version all ver with
    | .ok m => run_migration m s
    | .error e => (s, .error e)

def revert_migration_with_version (all : List (Migration σ)) (ver : String) : M σ Unit :=
  fun s =>
    match migration_with_version all ver with
    | .ok m => revert_migration m s
    | .error e => (s, .error e)

/-- revert_latest_migration: ensure the tracking table, read the latest
recorded version, revert the unit with that version, and return the
version. -/
def revert_latest_migration (all : List (Migration σ)) : M σ String :=
  M.bind create_schema_migrations_table_if_needed (fun _ =>
  M.bind latest_run_migration_version (fun v =>
  M.bind (revert_migration_with_version all v) (fun _ => M.pure v)))

/-- The cumulative effect of the up procedures of a list of migrations, in
order, stopping at the first failure. -/
def applyUps : List (Migration σ) → σ → Except MigrationError σ
  | [], sch => .ok sch
  | m :: rest, sch =>
    match m.up sch with
    | .ok sch1 => applyUps rest sch1
    | .error e => .error e

/- Enumeration of a migrations directory. -/

/-- One immediate entry of the migrations directory: its folder name and
whether the up and down procedure files are present inside it. -/
structure DirEntry where
  fileName : String
  hasUpSql : Bool
  hasDownSql : Bool
deriving DecidableEq, Repr

/-- A parsed migration folder: version and name. -/
structure MigrationUnit where
  version : String
  name : String
deriving DecidableEq, Repr

/-- Splitting a character list at the first underscore; none when no
underscore occurs. -/
def splitFirstUnderscore : List Char → Option (List Char × List Char)
  | [] => none
  | c :: cs =>
    if c = '_' then some ([], cs)
    else
      match splitFirstUnderscore cs with
      | none => none
      | some (v, n) => some (c :: v, n)

/-- Splitting a folder name into version and name on the first separator
after the version token. -/
def splitVersionName (fileName : String) : Option (String × String) :=
  match splitFirstUnderscore fileName.toList with
  | none => none
  | some (v, n) => some (String.mk v, String.mk n)

/-- Modelled from the spec: parsing one migration folder (migration_from in
src/diesel/src/migrations/migration.rs, which is not under src).  The name
must split into version and name, and the folder must contain the up and
the down procedure file; otherwise the folder is malformed. -/
def migration_from (e : DirEntry) : Except MigrationError MigrationUnit :=
  match splitVersionName e.fileName with
  | none => .error .malformedMigrationFolder
  | some (v, n) =>
    if e.hasUpSql && e.hasDownSql then .ok ⟨v, n⟩
    else .error .malformedMigrationFolder

/-- migrations_in_directory: parse every immediate entry whose name does
not start with a hidden-file marker, collecting the units in directory
order and aborting on the first parse failure.  No duplicate-version check
is performed. -/
def migrations_in_directory : List DirEntry → Except MigrationError (List MigrationUnit)
  | [] => .ok []
  | e :: rest =>
    if startsWithDot e.fileName then migrations_in_directory rest
    else
      match migration_from e with
      | .error err => .error err
      | .ok m =>
        match migrations_in_directory rest with
        | .error err => .error err
        | .ok ms => .ok (m :: ms)

/- The directory locator. -/

/-- search_for_migrations_directory over a filesystem modelled as the
predicate isDir on absolute paths, a path being its component list from
the root.  The path joined with the component migrations is returned if it
is a directory; otherwise the parent is searched; at the root the search
fails with migrationDirectoryNotFound. -/
def search_for_migrations_directory (isDir : List String → Bool) (p : List String) :
    Except MigrationError (List String) :=
  if isDir (p ++ ["migrations"]) then .ok (p ++ ["migrations"])
  else
    match p with
    | [] => .error .migrationDirectoryNotFound
    | a :: rest => search_for_migrations_directory isDir (a :: rest).dropLast
termination_by p.length
decreasing_by simp [List.length_dropLast]

/-- The chain of a path and all its ancestors, nearest first, ending with
the root. -/
def ancestorChain (p : List String) : List (List String) :=
  match p with
  | [] => [[]]
  | a :: rest => (a :: rest) :: ancestorChain ((a :: rest).dropLast)
termination_by p.length
decreasing_by simp [List.length_dropLast]

/- Concrete values used by the witness theorems. -/

def exMig1 : Migration Unit := ⟨"20151219180527", fun _ => .ok (), fun _ => .ok ()⟩

def exMig2 : Migration Unit := ⟨"20160107082941", fun _ => .ok (), fun _ => .ok ()⟩

def exMigBad : Migration Unit :=
  ⟨"9", fun _ => .error .queryError, fun _ => .error .queryError⟩

def exDbNone : DbState Unit := ⟨none, ()⟩

def exDbEmpty : DbState Unit := ⟨some [], ()⟩

def exDb1 : DbState Unit := ⟨some ["20151219180527"], ()⟩

def exDb21 : DbState Unit := ⟨some ["20160107082941", "20151219180527"], ()⟩

def exDb9 : DbState Unit := ⟨some ["9"], ()⟩

def exEntryA : DirEntry := ⟨"20160101000000_create_users", true, true⟩

def exEntryB : DirEntry := ⟨"20160101000000_copy", true, true⟩

def exUnitA : MigrationUnit := ⟨"20160101000000", "create_users"⟩

def exUnitB : MigrationUnit := ⟨"20160101000000", "copy"⟩

/- ------------------------------------------------------------------ -/
/- Theorems                                                           -/
/- ------------------------------------------------------------------ -/

theorem beBytes_length (w u : Nat) : (beBytes w u).length = w := by
  induction w generalizing u with
  | zero => rfl
  | succ w ih => simp [beBytes, ih]

theorem beVal_beBytes (w acc u : Nat) :
    beVal acc (beBytes w u) = acc * 256 ^ w + u % 256 ^ w := by
  induction w generalizing acc with
  | zero => simp [beBytes, beVal, Nat.mod_one]
  | succ w ih =>
    rw [beBytes, beVal, ih, pow_succ, Nat.mod_mul]
    ring

theorem pow256_eq (w : Nat) : (256 : Nat) ^ w = 2 ^ (8 * w) := by
  rw [show (256 : Nat) = 2 ^ 8 from rfl, ← pow_mul]

/-- Round trip of the fixed-width big-endian signed codec for an
in-range value. -/
theorem fromSqlBE_toSqlBE (w : Nat) (hw : 0 < w) (v : Int)
    (hlo : -(2 ^ (8 * w - 1)) ≤ v) (hhi : v < 2 ^ (8 * w - 1)) :
    fromSqlBE w (some (toSqlBE w v)) = .ok v := by
  have hkw : 8 * w - 1 + 1 = 8 * w := by omega
  have hsplit : (2 : Int) ^ (8 * w) = 2 ^ (8 * w - 1) * 2 := by
    rw [← pow_succ, hkw]
  have hnsplit : (2 : Nat) ^ (8 * w) = 2 ^ (8 * w - 1) * 2 := by
    rw [← pow_succ, hkw]
  have hpos : (0 : Int) < 2 ^ (8 * w) := by positivity
  have hmod_lt : v % (2 : Int) ^ (8 * w) < 2 ^ (8 * w) := Int.emod_lt_of_pos v hpos
  have hmod_nonneg : 0 ≤ v % (2 : Int) ^ (8 * w) := Int.emod_nonneg v (ne_of_gt hpos)
  have hlen : (toSqlBE w v).length = w := beBytes_length _ _
  have hcastw : (((2 : Nat) ^ (8 * w) : Nat) : Int) = (2 : Int) ^ (8 * w) := by
    push_cast
    rfl
  have hval : beVal 0 ((toSqlBE w v).take w) = (v % (2 : Int) ^ (8 * w)).toNat := by
    rw [List.take_of_length_le (le_of_eq hlen), toSqlBE, beVal_beBytes, pow256_eq]
    have : ((v % (2 : Int) ^ (8 * w)).toNat) < 2 ^ (8 * w) := by
      omega
    simp [Nat.mod_eq_of_lt this]
  rw [fromSqlBE]
  simp only [hlen, lt_irrefl, if_false, hval]
  have hcast : (((2 : Nat) ^ (8 * w - 1) : Nat) : Int) = (2 : Int) ^ (8 * w - 1) := by
    push_cast
    rfl
  rcases le_or_lt 0 v with hv | hv
  · have hmod : v % (2 : Int) ^ (8 * w) = v := by
      apply Int.emod_eq_of_lt hv
      calc v < 2 ^ (8 * w - 1) := hhi
        _ ≤ 2 ^ (8 * w) := by omega
    rw [hmod]
    have hlt : v.toNat < 2 ^ (8 * w - 1) := by omega
    simp only [if_pos hlt]
    congr 1
    omega
  · have hmod : v % (2 : Int) ^ (8 * w) = v + 2 ^ (8 * w) := by
      have h1 : (v + 2 ^ (8 * w)) % (2 : Int) ^ (8 * w) = v % (2 : Int) ^ (8 * w) := by
        simp [Int.add_mul_emod_self_left]
      rw [← h1]
      apply Int.emod_eq_of_lt <;> omega
    rw [hmod]
    have hge : ¬ ((v + 2 ^ (8 * w)).toNat < 2 ^ (8 * w - 1)) := by omega
    simp only [if_neg hge]
    congr 1
    omega

/-- Claim C9: for every i16, i32, and i64 value, to_sql produces exactly the
fixed-width big-endian byte representation of that value (matching the byte
vectors of the repository tests i16_to_sql, i32_to_sql, and i64_to_sql), and
from_sql on those bytes at the same SQL type returns the original value: the
codec round-trips to the identity. -/
theorem integer_codec_round_trip (v2 v4 v8 : Int) :
    (i16_to_sql 1 = [0, 1] ∧ i16_to_sql 0 = [0, 0] ∧ i16_to_sql (-1) = [255, 255]) ∧
    (i32_to_sql 1 = [0, 0, 0, 1] ∧ i32_to_sql 0 = [0, 0, 0, 0] ∧
      i32_to_sql (-1) = [255, 255, 255, 255]) ∧
    (i64_to_sql 1 = [0, 0, 0, 0, 0, 0, 0, 1] ∧ i64_to_sql 0 = [0, 0, 0, 0, 0, 0, 0, 0] ∧
      i64_to_sql (-1) = [255, 255, 255, 255, 255, 255, 255, 255]) ∧
    ((i16_to_sql v2).length = 2 ∧ (i32_to_sql v4).length = 4 ∧ (i64_to_sql v8).length = 8) ∧
    (-(2 ^ 15) ≤ v2 → v2 < 2 ^ 15 → i16_from_sql (some (i16_to_sql v2)) = .ok v2) ∧
    (-(2 ^ 31) ≤ v4 → v4 < 2 ^ 31 → i32_from_sql (some (i32_to_sql v4)) = .ok v4) ∧
    (-(2 ^ 63) ≤ v8 → v8 < 2 ^ 63 → i64_from_sql (some (i64_to_sql v8)) = .ok v8) := by
  refine ⟨⟨by decide, by decide, by decide⟩, ⟨by decide, by decide, by decide⟩,
    ⟨by decide, by decide, by decide⟩,
    ⟨beBytes_length _ _, beBytes_length _ _, beBytes_length _ _⟩, ?_, ?_, ?_⟩
  · intro h1 h2
    exact fromSqlBE_toSqlBE 2 (by omega) v2 h1 h2
  · intro h1 h2
    exact fromSqlBE_toSqlBE 4 (by omega) v4 h1 h2
  · intro h1 h2
    exact fromSqlBE_toSqlBE 8 (by omega) v8 h1 h2

/-- Witness for C9 at concrete in-range inputs, including negative ones. -/
theorem integer_codec_round_trip_witness :
    i16_from_sql (some (i16_to_sql (-2))) = .ok (-2) ∧
    i32_from_sql (some (i32_to_sql 70000)) = .ok 70000 ∧
    i64_from_sql (some (i64_to_sql (-129))) = .ok (-129) :=
  ⟨(integer_codec_round_trip (-2) 0 0).2.2.2.2.1 (by decide) (by decide),
   (integer_codec_round_trip 0 70000 0).2.2.2.2.2.1 (by decide) (by decide),
   (integer_codec_round_trip 0 0 (-129)).2.2.2.2.2.2 (by decide) (by decide)⟩

/-- Claim C10: for each of the integer deserializers (i16, i32, i64, u32),
from_sql on absent bytes (SQL NULL) returns an error rather than a value,
and from_sql on a buffer with fewer bytes than the fixed width also returns
an error. -/
theorem from_sql_null_and_short_input_error (bs : List Nat) :
    i16_from_sql none = .error .unexpectedNull ∧
    i32_from_sql none = .error .unexpectedNull ∧
    i64_from_sql none = .error .unexpectedNull ∧
    u32_from_sql none = .error .unexpectedNull ∧
    (bs.length < 2 → i16_from_sql (some bs) = .error .unexpectedEof) ∧
    (bs.length < 4 → i32_from_sql (some bs) = .error .unexpectedEof) ∧
    (bs.length < 8 → i64_from_sql (some bs) = .error .unexpectedEof) ∧
    (bs.length < 4 → u32_from_sql (some bs) = .error .unexpectedEof) := by
  refine ⟨rfl, rfl, rfl, rfl, ?_, ?_, ?_, ?_⟩ <;>
    intro h <;> simp [i16_from_sql, i32_from_sql, i64_from_sql, u32_from_sql, fromSqlBE, h]

/-- Witness for C10 on a one-byte buffer. -/
theorem from_sql_null_and_short_input_error_witness :
    i16_from_sql (some [7]) = .error .unexpectedEof ∧
    i64_from_sql (some [7]) = .error .unexpectedEof ∧
    u32_from_sql (some [7]) = .error .unexpectedEof :=
  ⟨(from_sql_null_and_short_input_error [7]).2.2.2.2.1 (by decide),
   (from_sql_null_and_short_input_error [7]).2.2.2.2.2.2.1 (by decide),
   (from_sql_null_and_short_input_error [7]).2.2.2.2.2.2.2 (by decide)⟩

/- Helper lemmas about the migration runner. -/

theorem transaction_rollback (body : M σ α) (s s1 : DbState σ) (e : MigrationError)
    (h : transaction body s = (s1, .error e)) : s1 = s := by
  unfold transaction at h
  split at h <;> simp_all

theorem create_schema_migrations_table_if_needed_eq (s : DbState σ) :
    create_schema_migrations_table_if_needed s = (ensureState s, .ok 0) := by
  cases s with
  | mk tr sch =>
    cases tr <;>
      simp [create_schema_migrations_table_if_needed, silenceNotices,
        executeCreateTrackingTable, ensureState]

theorem ensureState_of_some (s : DbState σ) (rows : List String)
    (h : s.tracking = some rows) : ensureState s = s := by
  cases s with
  | mk tr sch =>
    simp at h
    simp [ensureState, h]

theorem previously_run_of_some (s : DbState σ) (rows : List String)
    (h : s.tracking = some rows) :
    previously_run_migration_versions s = (s, .ok rows) := by
  simp [previously_run_migration_versions, h]

theorem run_migration_eq (m : Migration σ) (s : DbState σ) :
    run_migration m s =
      match m.up s.schema, s.tracking with
      | .ok sch, some rows =>
        if m.version ∈ rows then (s, .error .queryError)
        else (⟨some (rows ++ [m.version]), sch⟩, .ok ())
      | .ok _, none => (s, .error .queryError)
      | .error e, _ => (s, .error e) := by
  cases hup : m.up s.schema with
  | error e =>
    simp [run_migration, transaction, M.bind, Migration.runProc, hup]
  | ok sch =>
    cases htr : s.tracking with
    | none =>
      simp [run_migration, transaction, M.bind, Migration.runProc,
        insertMigrationVersion, hup, htr]
    | some rows =>
      by_cases hmem : m.version ∈ rows <;>
        simp [run_migration, transaction, M.bind, Migration.runProc,
          insertMigrationVersion, hup, htr, hmem]

theorem revert_migration_eq (m : Migration σ) (s : DbState σ) :
    revert_migration m s =
      match m.down s.schema, s.tracking with
      | .ok sch, some rows =>
        (⟨some (rows.filter (fun w => w != m.version)), sch⟩, .ok ())
      | .ok _, none => (s, .error .queryError)
      | .error e, _ => (s, .error e) := by
  cases hdn : m.down s.schema with
  | error e =>
    simp [revert_migration, transaction, M.bind, Migration.revertProc, hdn]
  | ok sch =>
    cases htr : s.tracking with
    | none =>
      simp [revert_migration, transaction, M.bind, Migration.revertProc,
        deleteMigrationVersion, hdn, htr]
    | some rows =>
      simp [revert_migration, transaction, M.bind, Migration.revertProc,
        deleteMigrationVersion, hdn, htr]

theorem run_migration_ok (m : Migration σ) (s s1 : DbState σ)
    (h : run_migration m s = (s1, .ok ())) :
    ∃ rows sch, s.tracking = some rows ∧ m.version ∉ rows ∧ m.up s.schema = .ok sch ∧
      s1 = ⟨some (rows ++ [m.version]), sch⟩ := by
  rw [run_migration_eq] at h
  cases hup : m.up s.schema with
  | error e => simp [hup] at h
  | ok sch =>
    cases htr : s.tracking with
    | none => simp [hup, htr] at h
    | some rows =>
      by_cases hmem : m.version ∈ rows
      · simp [hup, htr, hmem] at h
      · simp [hup, htr, hmem] at h
        exact ⟨rows, sch, rfl, hmem, rfl, h.symm⟩

theorem run_migration_error_state (m : Migration σ) (s s1 : DbState σ) (e : MigrationError)
    (h : run_migration m s = (s1, .error e)) : s1 = s :=
  transaction_rollback _ s s1 e h

theorem run_migrations_ok (ms : List (Migration σ)) (rows : List String) (s s1 : DbState σ)
    (htr : s.tracking = some rows) (h : run_migrations ms s = (s1, .ok ())) :
    s1.tracking = some (rows ++ ms.map Migration.version) ∧
    applyUps ms s.schema = .ok s1.schema := by
  induction ms generalizing rows s with
  | nil =>
    simp only [run_migrations, M.pure, Prod.mk.injEq] at h
    rw [← h.1]
    simp [applyUps, htr]
  | cons m rest ih =>
    simp only [run_migrations, M.bind] at h
    cases hrm : run_migration m s with
    | mk s2 res =>
      rw [hrm] at h
      cases res with
      | error e => simp at h
      | ok a =>
        obtain ⟨rows0, sch, htr0, hmem, hup, hs2⟩ := run_migration_ok m s s2 hrm
        have hrows : rows0 = rows := by
          rw [htr0] at htr
          exact Option.some.inj htr
        subst hrows
        have h2 := ih (rows0 ++ [m.version]) s2 (by rw [hs2]) h
        constructor
        · rw [h2.1]
          simp
        · have hsch : s2.schema = sch := by rw [hs2]
          simp only [applyUps, hup, ← hsch]
          exact h2.2

theorem run_migrations_append_eq (xs ys : List (Migration σ)) (s : DbState σ) :
    run_migrations (xs ++ ys) s =
      match run_migrations xs s with
      | (s2, .ok _) => run_migrations ys s2
      | (s2, .error e) => (s2, .error e) := by
  induction xs generalizing s with
  | nil => simp [run_migrations, M.pure]
  | cons m rest ih =>
    simp only [List.cons_append, run_migrations, M.bind]
    cases hrm : run_migration m s with
    | mk s2 res =>
      cases res with
      | error e => simp
      | ok a => simp [ih s2]

/-- The characterization of a successful run_pending_migrations call, shared
by downstream theorems. -/
theorem run_pending_ok (all : List (Migration σ)) (s s1 : DbState σ)
    (h : run_pending_migrations all s = (s1, .ok ())) :
    s1.tracking = some ((s.tracking.getD []) ++
      (all.filter
        (fun m => !(((s.tracking.getD []) : List String).contains m.version))).map
        Migration.version) ∧
    applyUps (all.filter
        (fun m => !(((s.tracking.getD []) : List String).contains m.version))) s.schema
      = .ok s1.schema := by
  have hcr := create_schema_migrations_table_if_needed_eq (σ := σ) s
  have hpr : previously_run_migration_versions (ensureState s)
      = (ensureState s, .ok (s.tracking.getD [])) := by
    apply previously_run_of_some
    simp [ensureState]
  simp only [run_pending_migrations, M.bind, hcr, hpr] at h
  have hres := run_migrations_ok _ (s.tracking.getD []) (ensureState s) s1
    (by simp [ensureState]) h
  have hsch : (ensureState s).schema = s.schema := by simp [ensureState]
  rw [hsch] at hres
  exact hres

/-- Claim C1: for every set of discovered migration units and every
applied-version set, run_pending_migrations applies exactly those units
whose version is not in the applied set, processing them in the order the
directory enumeration yielded them, with no sorting by version applied
before running: on success the tracking table gains exactly the pending
versions appended in enumeration order, and the schema is the result of
the pending up procedures run in that order. -/
theorem run_pending_applies_exactly_pending (all : List (Migration σ)) (s s1 : DbState σ)
    (h : run_pending_migrations all s = (s1, .ok ())) :
    s1.tracking = some ((s.tracking.getD []) ++
      (all.filter
        (fun m => !(((s.tracking.getD []) : List String).contains m.version))).map
        Migration.version) ∧
    applyUps (all.filter
        (fun m => !(((s.tracking.getD []) : List String).contains m.version))) s.schema
      = .ok s1.schema :=
  run_pending_ok all s s1 h

/-- Witness for C1: two units enumerated in reverse version order are both
applied and recorded in enumeration order, not version order. -/
theorem run_pending_applies_exactly_pending_witness :
    exDb21.tracking = some ((exDbNone.tracking.getD []) ++
      ([exMig2, exMig1].filter
        (fun m => !(((exDbNone.tracking.getD []) : List String).contains m.version))).map
        Migration.version) ∧
    applyUps ([exMig2, exMig1].filter
        (fun m => !(((exDbNone.tracking.getD []) : List String).contains m.version)))
        exDbNone.schema
      = .ok exDb21.schema :=
  run_pending_applies_exactly_pending [exMig2, exMig1] exDbNone exDb21 rfl

/-- Claim C2: applying a migration (up procedure then tracking insert) and
reverting one (down procedure then tracking delete) are each one
transaction scope: on any failure the state rolls back entirely, so a
failed apply leaves the unit unrecorded and a failed revert leaves it
recorded; on success the apply appends the tracking row and the revert
removes it. -/
theorem migration_transaction_atomicity (m : Migration σ) (s s1 : DbState σ) :
    (∀ e, run_migration m s = (s1, .error e) → s1 = s) ∧
    (run_migration m s = (s1, .ok ()) →
      s1.tracking = some ((s.tracking.getD []) ++ [m.version]) ∧
      m.up s.schema = .ok s1.schema) ∧
    (∀ e, revert_migration m s = (s1, .error e) → s1 = s) ∧
    (revert_migration m s = (s1, .ok ()) →
      m.version ∉ (s1.tracking.getD []) ∧ m.down s.schema = .ok s1.schema) := by
  refine ⟨?_, ?_, ?_, ?_⟩
  · intro e h
    exact run_migration_error_state m s s1 e h
  · intro h
    obtain ⟨rows, sch, htr, hmem, hup, hs1⟩ := run_migration_ok m s s1 h
    rw [hs1, htr]
    simp [hup]
  · intro e h
    exact transaction_rollback _ s s1 e h
  · intro h
    rw [revert_migration_eq] at h
    cases hdn : m.down s.schema with
    | error e => simp [hdn] at h
    | ok sch =>
      cases htr : s.tracking with
      | none => simp [hdn, htr] at h
      | some rows =>
        simp [hdn, htr] at h
        rw [← h]
        simp [List.mem_filter]

/-- Witness for C2: a successful apply records the version, a failed apply
rolls back, a successful revert unrecords the version, and a failed revert
rolls back. -/
theorem migration_transaction_atomicity_witness :
    (exDb1.tracking = some ((exDbEmpty.tracking.getD []) ++ ["20151219180527"]) ∧
      exMig1.up exDbEmpty.schema = .ok exDb1.schema) ∧
    exDbEmpty = exDbEmpty ∧
    ("20151219180527" ∉ (exDbEmpty.tracking.getD []) ∧
      exMig1.down exDb1.schema = .ok exDbEmpty.schema) ∧
    exDb1 = exDb1 :=
  ⟨(migration_transaction_atomicity exMig1 exDbEmpty exDb1).2.1 rfl,
   (migration_transaction_atomicity exMigBad exDbEmpty exDbEmpty).1 .queryError rfl,
   (migration_transaction_atomicity exMig1 exDb1 exDbEmpty).2.2.2 rfl,
   (migration_transaction_atomicity exMigBad exDb1 exDb1).2.2.1 .queryError rfl⟩

/-- Claim C3: if the units before m in the batch all applied and m fails,
then the whole run returns the error of m with the state left exactly as
after the applied ones: units after m are not attempted, the applied ones
remain committed and recorded, and m itself left no trace. -/
theorem run_migrations_abort_on_failure (pre post : List (Migration σ)) (m : Migration σ)
    (rows : List String) (s s1 : DbState σ) (e : MigrationError)
    (htr : s.tracking = some rows)
    (hpre : run_migrations pre s = (s1, .ok ()))
    (hm : (run_migration m s1).2 = .error e) :
    run_migrations (pre ++ m :: post) s = (s1, .error e) ∧
    s1.tracking = some (rows ++ pre.map Migration.version) := by
  have hs1 : (run_migration m s1).1 = s1 := by
    cases hrm : run_migration m s1 with
    | mk s2 res =>
      rw [hrm] at hm
      simp at hm
      rw [hm] at hrm
      exact run_migration_error_state m s1 s2 e hrm
  constructor
  · rw [run_migrations_append_eq, hpre]
    simp only [run_migrations, M.bind]
    cases hrm : run_migration m s1 with
    | mk s2 res =>
      rw [hrm] at hm hs1
      simp at hm hs1
      rw [hm, hs1]
  · exact (run_migrations_ok pre rows s s1 htr hpre).1

/-- Witness for C3: with one applied unit, one failing unit, and one unit
after it, the run stops at the failing unit, keeps the first one recorded,
and never attempts the last one. -/
theorem run_migrations_abort_on_failure_witness :
    run_migrations ([exMig1] ++ exMigBad :: [exMig2]) exDbEmpty
      = (exDb1, .error .queryError) ∧
    exDb1.tracking = some ([] ++ [exMig1].map Migration.version) :=
  run_migrations_abort_on_failure [exMig1] [exMig2] exMigBad [] exDbEmpty exDb1
    .queryError rfl rfl rfl

/-- Claim C4: a second run_pending_migrations call right after a successful
one, with the same discovered units, finds no pending unit, applies
nothing, and leaves the tracking table exactly as the first call left
it. -/
theorem run_pending_migrations_idempotent (all : List (Migration σ)) (s s1 : DbState σ)
    (h : run_pending_migrations all s = (s1, .ok ())) :
    run_pending_migrations all s1 = (s1, .ok ()) ∧
    all.filter (fun m => !(((s1.tracking.getD []) : List String).contains m.version)) = [] := by
  have hchar := run_pending_ok all s s1 h
  set rows0 : List String := s.tracking.getD [] with hrows0
  set pend := all.filter (fun m => !((rows0 : List String).contains m.version)) with hpend
  have htr1 : s1.tracking = some (rows0 ++ pend.map Migration.version) := hchar.1
  have hrows1 : (s1.tracking.getD []) = rows0 ++ pend.map Migration.version := by
    rw [htr1]
    rfl
  have hfilter :
      all.filter (fun m => !(((s1.tracking.getD []) : List String).contains m.version)) = [] := by
    rw [List.filter_eq_nil_iff]
    intro m hmem
    simp only [Bool.not_eq_true', Bool.not_eq_true]
    rw [hrows1]
    simp only [List.contains_eq_any_beq]
    intro hcon
    rw [List.any_eq_false] at hcon
    by_cases hin : m.version ∈ rows0
    · exact hcon m.version (List.mem_append_left _ hin) (by simp)
    · refine hcon m.version (List.mem_append_right _ ?_) (by simp)
      apply List.mem_map_of_mem Migration.version
      rw [hpend, List.mem_filter]
      exact ⟨hmem, by simpa using hin⟩
  refine ⟨?_, hfilter⟩
  have hcr := create_schema_migrations_table_if_needed_eq (σ := σ) s1
  rw [ensureState_of_some s1 _ htr1] at hcr
  have hpr := previously_run_of_some s1 _ htr1
  simp only [run_pending_migrations, M.bind, hcr, hpr]
  rw [hrows1] at hfilter
  rw [hfilter]
  simp [run_migrations, M.pure]

/-- Witness for C4: after one unit is applied from an empty database, a
second identical call applies nothing and leaves the tracking table
unchanged. -/
theorem run_pending_migrations_idempotent_witness :
    run_pending_migrations [exMig1] exDb1 = (exDb1, .ok ()) ∧
    [exMig1].filter
      (fun m => !(((exDb1.tracking.getD []) : List String).contains m.version)) = [] :=
  run_pending_migrations_idempotent [exMig1] exDbNone exDb1 rfl

theorem string_max?_spec (xs : List String) (a : String) (h : xs.max? = some a) :
    a ∈ xs ∧ ∀ b ∈ xs, b ≤ a := by
  haveI : Std.Antisymm (fun x y : String => x ≤ y) := ⟨fun h1 h2 => le_antisymm h1 h2⟩
  exact (List.max?_eq_some_iff (fun _ => le_refl _) (fun a b => max_choice a b)
    (fun _ _ _ => max_le_iff)).mp h

/-- Claim C5: revert_latest_migration fails with the no-migrations-recorded
condition when the applied set is empty, fails with unknownMigrationVersion
when no enumerated unit matches the maximum applied version, and on success
reverts the unit whose version is the maximum of the applied set and
returns that version string. -/
theorem revert_latest_migration_spec (all : List (Migration σ)) (s : DbState σ) :
    ((s.tracking.getD [] : List String) = [] →
      revert_latest_migration all s = (ensureState s, .error .noMigrationsRun)) ∧
    (∀ v, (s.tracking.getD [] : List String).max? = some v →
      all.find? (fun m => m.version == v) = none →
      revert_latest_migration all s = (ensureState s, .error (.unknownMigrationVersion v))) ∧
    (∀ s1 r, revert_latest_migration all s = (s1, .ok r) →
      r ∈ (s.tracking.getD [] : List String) ∧
      (∀ w ∈ (s.tracking.getD [] : List String), w ≤ r) ∧
      ∃ m, migration_with_version all r = .ok m ∧ m.version = r ∧
        m.down s.schema = .ok s1.schema ∧ r ∉ (s1.tracking.getD [] : List String)) := by
  have hcr := create_schema_migrations_table_if_needed_eq (σ := σ) s
  have htre : (ensureState s).tracking = some (s.tracking.getD []) := by simp [ensureState]
  have hsch : (ensureState s).schema = s.schema := by simp [ensureState]
  refine ⟨?_, ?_, ?_⟩
  · intro hemp
    simp only [revert_latest_migration, M.bind, hcr]
    simp [latest_run_migration_version, htre, hemp]
  · intro v hmax hfind
    simp only [revert_latest_migration, M.bind, hcr]
    simp [latest_run_migration_version, htre, hmax, revert_migration_with_version,
      migration_with_version, hfind]
  · intro s1 r h
    simp only [revert_latest_migration, M.bind, hcr] at h
    cases hmax : (s.tracking.getD [] : List String).max? with
    | none =>
      simp [latest_run_migration_version, htre, hmax] at h
    | some v =>
      simp only [latest_run_migration_version, htre, hmax] at h
      cases hfind : all.find? (fun m => m.version == v) with
      | none =>
        simp [revert_migration_with_version, migration_with_version, hfind] at h
      | some m =>
        simp only [revert_migration_with_version, migration_with_version, hfind] at h
        rw [revert_migration_eq] at h
        cases hdn : m.down (ensureState s).schema with
        | error e =>
          simp [hdn, htre] at h
        | ok sch =>
          simp only [hdn, htre, M.pure] at h
          have hs1 : s1 = ⟨some (((s.tracking.getD [] : List String)).filter
              (fun w => w != m.version)), sch⟩ := by
            simp at h
            exact h.1.symm
          have hr : r = v := by
            simp at h
            exact h.2.symm
          have hver : m.version = v := by
            have hp := List.find?_some hfind
            simpa using hp
          have hms := string_max?_spec _ v hmax
          subst hr
          refine ⟨hms.1, hms.2, m, ?_, hver, ?_, ?_⟩
          · simp [migration_with_version, hfind]
          · rw [hsch] at hdn
            rw [hdn, hs1]
          · rw [hs1]
            simp [List.mem_filter, hver]

/-- Witness for C5: the three behaviors at concrete states, with one
recorded version, an empty set, and a recorded version missing on disk. -/
theorem revert_latest_migration_spec_witness :
    revert_latest_migration [exMig1] exDbEmpty
      = (ensureState exDbEmpty, .error .noMigrationsRun) ∧
    revert_latest_migration [exMig1] exDb9
      = (ensureState exDb9, .error (.unknownMigrationVersion "9")) ∧
    ("20151219180527" ∈ (exDb1.tracking.getD [] : List String) ∧
      (∀ w ∈ (exDb1.tracking.getD [] : List String), w ≤ "20151219180527") ∧
      ∃ m, migration_with_version [exMig1] "20151219180527" = .ok m ∧
        m.version = "20151219180527" ∧
        m.down exDb1.schema = .ok exDbEmpty.schema ∧
        "20151219180527" ∉ (exDbEmpty.tracking.getD [] : List String)) :=
  ⟨(revert_latest_migration_spec [exMig1] exDbEmpty).1 rfl,
   (revert_latest_migration_spec [exMig1] exDb9).2.1 "9" rfl rfl,
   (revert_latest_migration_spec [exMig1] exDb1).2.2 exDbEmpty "20151219180527" rfl⟩

/-- Claim C6 is refuted by this closed counterexample: two folders that
parse to the same version are both returned by enumeration, with no
duplicate detection and no error. -/
theorem enumeration_accepts_duplicate_versions_cex :
    migrations_in_directory [exEntryA, exEntryB] = .ok [exUnitA, exUnitB] ∧
    exUnitA.version = exUnitB.version := ⟨rfl, rfl⟩

/-- Claim C6 (amended): when two discovered folders parse to units with the
same version, enumeration does not detect the duplicate and returns the
list containing both units; the duplicate is rejected only when its
tracking row is inserted, as a primary-key query error. -/
theorem enumeration_returns_both_duplicate_units (e1 e2 : DirEntry)
    (u1 u2 : MigrationUnit) (sch : σ) (rows : List String)
    (h1 : startsWithDot e1.fileName = false) (h2 : startsWithDot e2.fileName = false)
    (hm1 : migration_from e1 = .ok u1) (hm2 : migration_from e2 = .ok u2)
    (_hv : u1.version = u2.version) (hrow : u2.version ∈ rows) :
    migrations_in_directory [e1, e2] = .ok [u1, u2] ∧
    insertMigrationVersion u2.version ⟨some rows, sch⟩ =
      (⟨some rows, sch⟩, .error .queryError) := by
  constructor
  · simp [migrations_in_directory, h1, h2, hm1, hm2]
  · simp [insertMigrationVersion, hrow]

/-- Witness for C6 (amended) at the concrete duplicate entries. -/
theorem enumeration_returns_both_duplicate_units_witness :
    migrations_in_directory [exEntryA, exEntryB] = .ok [exUnitA, exUnitB] ∧
    insertMigrationVersion exUnitB.version
        (⟨some ["20160101000000"], ()⟩ : DbState Unit) =
      ((⟨some ["20160101000000"], ()⟩ : DbState Unit), .error .queryError) :=
  enumeration_returns_both_duplicate_units exEntryA exEntryB exUnitA exUnitB ()
    ["20160101000000"] rfl rfl rfl rfl rfl (List.mem_singleton.mpr rfl)

/-- Claim C7 is refuted by this closed counterexample: the table created by
the DDL of create_schema_migrations_table_if_needed is not named
__schema_migrations. -/
theorem tracking_table_name_cex : trackingTableName ≠ "__schema_migrations" := by
  decide

/-- Claim C7 (amended): the tracking table is named
__diesel_schema_migrations, has exactly the columns version (VARCHAR,
primary key, not null) and run_on (TIMESTAMP, not null, defaulting to the
current time), is created with CREATE TABLE IF NOT EXISTS semantics so
repeated calls are no-ops, and the call runs with backend diagnostics
suppressed. -/
theorem tracking_table_schema_spec (s : DbState σ) :
    trackingTableName = "__diesel_schema_migrations" ∧
    strHasPrefix createTableSql "CREATE TABLE IF NOT EXISTS " = true ∧
    trackingTableColumns = ["version VARCHAR PRIMARY KEY NOT NULL",
      "run_on TIMESTAMP NOT NULL DEFAULT NOW()"] ∧
    create_schema_migrations_table_if_needed s = (ensureState s, .ok 0) ∧
    create_schema_migrations_table_if_needed (ensureState s) = (ensureState s, .ok 0) ∧
    create_schema_migrations_table_if_needed
      = silenceNotices (executeCreateTrackingTable (σ := σ)) := by
  refine ⟨by decide, by decide, by decide, create_schema_migrations_table_if_needed_eq s,
    ?_, rfl⟩
  have h2 := create_schema_migrations_table_if_needed_eq (σ := σ) (ensureState s)
  rw [ensureState_of_some (ensureState s) (s.tracking.getD []) (by simp [ensureState])] at h2
  exact h2

theorem search_spec_aux (n : Nat) (isDir : List String → Bool) :
    ∀ p : List String, p.length ≤ n →
    search_for_migrations_directory isDir p =
      match (ancestorChain p).find? (fun q => isDir (q ++ ["migrations"])) with
      | some q => .ok (q ++ ["migrations"])
      | none => .error .migrationDirectoryNotFound := by
  induction n with
  | zero =>
    intro p hp
    have hp0 : p = [] := List.length_eq_zero.mp (Nat.le_zero.mp hp)
    subst hp0
    rw [search_for_migrations_directory, ancestorChain]
    cases hd : isDir ["migrations"] <;> simp [hd]
  | succ n ih =>
    intro p hp
    cases p with
    | nil =>
      rw [search_for_migrations_directory, ancestorChain]
      cases hd : isDir ["migrations"] <;> simp [hd]
    | cons a rest =>
      rw [search_for_migrations_directory, ancestorChain]
      cases hd : isDir (a :: (rest ++ ["migrations"])) with
      | true => simp [hd]
      | false =>
        have hlen : ((a :: rest).dropLast).length ≤ n := by
          simp only [List.length_dropLast, List.length_cons] at hp ⊢
          omega
        rw [ih ((a :: rest).dropLast) hlen]
        simp [hd]

/-- Claim C8: the directory locator returns the migrations child of the
starting path when that child is a directory, otherwise recurses on the
parent, and fails with migrationDirectoryNotFound exactly when the root is
reached without success; equivalently, it returns the migrations child of
the nearest ancestor (the starting path included) having one, and errors
when no ancestor up to the root has one. -/
theorem search_finds_nearest_ancestor (isDir : List String → Bool) (p : List String) :
    search_for_migrations_directory isDir p =
      match (ancestorChain p).find? (fun q => isDir (q ++ ["migrations"])) with
      | some q => .ok (q ++ ["migrations"])
      | none => .error .migrationDirectoryNotFound :=
  search_spec_aux p.length isDir p (Nat.le_refl _)

end Diesel
